import Mathlib

/-!
Verification development for the medication-recommendation service
(src/app.py and src/perplexity_service.py).

The core routine is `parse_medication_recommendations` in
perplexity_service.py, which applies ordered regular-expression
heuristics to the raw model response.  The relevant Python regexes are
embedded below as executable functions over `List Char`, following the
backtracking semantics of Python's `re` module (leftmost match, ordered
alternation, greedy quantifiers with backtracking).  Whitespace and
digit classes are modelled over their ASCII members, matching the ASCII
subset of Python's `\s` and `\d`.
-/

/-- ASCII members of Python's whitespace class `\s` (also the characters
removed by `str.strip()`). -/
def isSpaceCh (c : Char) : Bool :=
  c == ' ' || c == '\t' || c == '\n' || c == '\r' || c.toNat == 11 || c.toNat == 12

/-- ASCII decimal digit, Python's `\d`. -/
def isDigitCh (c : Char) : Bool :=
  48 ≤ c.toNat && c.toNat ≤ 57

/-- Lowercasing on ASCII code points, used for case-insensitive matching. -/
def lowerN (n : Nat) : Nat :=
  if 65 ≤ n ∧ n ≤ 90 then n + 32 else n

/-- Drop the maximal run of leading whitespace (Python `\s*` consumed greedily,
or one side of `str.strip()`). -/
def dropWsL : List Char → List Char
  | [] => []
  | c :: cs => if isSpaceCh c then dropWsL cs else c :: cs

/-- Python's `str.strip()`: remove leading and trailing whitespace. -/
def pyStrip (cs : List Char) : List Char :=
  dropWsL ((dropWsL cs.reverse).reverse)

/-- Split off the maximal run of leading digits (`\d+` consumed greedily). -/
def takeDigits : List Char → List Char × List Char
  | [] => ([], [])
  | c :: cs =>
    if isDigitCh c then
      let p := takeDigits cs
      (c :: p.fst, p.snd)
    else ([], c :: cs)

/-- Split off the maximal run of characters other than a newline
(`[^\n]+` consumed greedily, together with what follows). -/
def splitNonNl : List Char → List Char × List Char
  | [] => ([], [])
  | c :: cs =>
    if c == '\n' then ([], c :: cs)
    else
      let p := splitNonNl cs
      (c :: p.fst, p.snd)

/-- The maximal run of characters other than a colon or newline
(`[^:\n]+` consumed greedily). -/
def takeNonCN : List Char → List Char
  | [] => []
  | c :: cs => if c == ':' || c == '\n' then [] else c :: takeNonCN cs

/-- Case-sensitive literal match; returns the remainder on success. -/
def litCS : List Char → List Char → Option (List Char)
  | [], cs => some cs
  | _ :: _, [] => none
  | p :: ps, c :: cs => if c == p then litCS ps cs else none

/-- Case-insensitive literal match (the pattern is given in lowercase);
returns the remainder on success. -/
def litCI : List Char → List Char → Option (List Char)
  | [], cs => some cs
  | _ :: _, [] => none
  | p :: ps, c :: cs => if lowerN c.toNat == p.toNat then litCI ps cs else none

/-!
Segmentation regex of perplexity_service.py line 77:
`(?:\n\s*\n|\n\s*(?:\d+(?:st|nd|rd|th)\s*choice|choice\s*\d+:))`
used with `re.split` (case-sensitive, no flags).
-/

/-- First split alternative after its leading newline: `\s*\n` with greedy
backtracking, i.e. consume through the last newline inside the leading
whitespace run; fails when that run contains no newline. -/
def alt1Aux : List Char → Option (List Char)
  | [] => none
  | c :: cs =>
    if c == '\n' then
      match alt1Aux cs with
      | some r => some r
      | none => some cs
    else if isSpaceCh c then alt1Aux cs
    else none

/-- Ordinal endings `(?:st|nd|rd|th)` (case-sensitive). -/
def ordEnding : List Char → Option (List Char)
  | 's' :: 't' :: cs => some cs
  | 'n' :: 'd' :: cs => some cs
  | 'r' :: 'd' :: cs => some cs
  | 't' :: 'h' :: cs => some cs
  | _ => none

/-- Literal `choice` of the split pattern. -/
def choiceLit : List Char := "choice".toList

/-- Split alternative `\d+(?:st|nd|rd|th)\s*choice` (after `\n\s*`). -/
def alt2a (r1 : List Char) : Option (List Char) :=
  match takeDigits r1 with
  | ([], _) => none
  | (_ :: _, r2) =>
    match ordEnding r2 with
    | some r3 => litCS choiceLit (dropWsL r3)
    | none => none

/-- Split alternative `choice\s*\d+:` (after `\n\s*`). -/
def alt2b (r1 : List Char) : Option (List Char) :=
  match litCS choiceLit r1 with
  | some r2 =>
    match takeDigits (dropWsL r2) with
    | ([], _) => none
    | (_ :: _, r3) =>
      match r3 with
      | ':' :: r4 => some r4
      | _ => none
  | none => none

/-- Second top-level split alternative after its leading newline:
`\s*(?:\d+(?:st|nd|rd|th)\s*choice|choice\s*\d+:)`.  The inner group can
only start at a digit or at `c`, never inside the whitespace run, so the
greedy `\s*` is consumed maximally. -/
def alt2 (rest : List Char) : Option (List Char) :=
  match alt2a (dropWsL rest) with
  | some r => some r
  | none => alt2b (dropWsL rest)

/-- A separator match of the split regex starting at this position; ordered
alternation tries `\n\s*\n` before the ordinal/choice alternative. -/
def splitSepAt : List Char → Option (List Char)
  | '\n' :: rest =>
    match alt1Aux rest with
    | some r => some r
    | none => alt2 rest
  | _ => none

/-- Scanning loop of `re.split`: emit the piece before each leftmost
separator match and continue after it.  Every separator consumes at least
one character, so fuel equal to the input length suffices. -/
def reSplitAux : Nat → List Char → List Char → List (List Char)
  | 0, acc, cs => [acc.reverse ++ cs]
  | _ + 1, acc, [] => [acc.reverse]
  | fuel + 1, acc, c :: cs =>
    match splitSepAt (c :: cs) with
    | some r => acc.reverse :: reSplitAux fuel [] r
    | none => reSplitAux fuel (c :: acc) cs

/-- `re.split` on the segmentation pattern of line 77. -/
def reSplit (cs : List Char) : List (List Char) :=
  reSplitAux cs.length [] cs

/-!
Capture-group semantics shared by the field patterns.
-/

/-- Group of `\s*([^\n]+)` with greedy backtracking: the capture starts at
the deepest position inside the leading whitespace run that still leaves a
non-newline character, preferring the first character after the run; returns
the captured run and the remainder after it. -/
def grpStart : List Char → Option (List Char × List Char)
  | [] => none
  | c :: cs =>
    if isSpaceCh c then
      match grpStart cs with
      | some pr => some pr
      | none => if c == '\n' then none else some (splitNonNl (c :: cs))
    else some (splitNonNl (c :: cs))

/-- Single-line captured value of `\s*([^\n]+)`. -/
def grpSL (t : List Char) : Option (List Char) :=
  match grpStart t with
  | some pr => some pr.fst
  | none => none

/-- Continuation body `\s*[^\n]+` (after the first whitespace character of
`\s+`), returning the consumed text and the remainder. -/
def contMore : List Char → Option (List Char × List Char)
  | [] => none
  | c :: cs =>
    if isSpaceCh c then
      match contMore cs with
      | some pr => some (c :: pr.fst, pr.snd)
      | none => if c == '\n' then none else some (splitNonNl (c :: cs))
    else some (splitNonNl (c :: cs))

/-- One continuation unit `\s+[^\n]+` after a newline. -/
def contAfterNl : List Char → Option (List Char × List Char)
  | [] => none
  | c :: cs =>
    if isSpaceCh c then
      match contMore cs with
      | some pr => some (c :: pr.fst, pr.snd)
      | none => none
    else none

/-- Greedy star `(?:\n\s+[^\n]+)*`: the text consumed by as many
continuation lines as match.  Each iteration consumes at least one
character, so fuel equal to the input length suffices. -/
def contStar : Nat → List Char → List Char
  | 0, _ => []
  | fuel + 1, cs =>
    match cs with
    | '\n' :: rest =>
      match contAfterNl rest with
      | some pr => '\n' :: (pr.fst ++ contStar fuel pr.snd)
      | none => []
    | _ => []

/-- Multi-line captured value of `\s*([^\n]+(?:\n\s+[^\n]+)*)`, used by the
dosage and side-effects patterns. -/
def grpML (t : List Char) : Option (List Char) :=
  match grpStart t with
  | some pr => some (pr.fst ++ contStar pr.snd.length pr.snd)
  | none => none

/-- Generic leftmost `re.search` scan: try the attempt at every position. -/
def scanSearch (att : List Char → Option (List Char)) : List Char → Option (List Char)
  | [] => none
  | c :: cs =>
    match att (c :: cs) with
    | some g => some g
    | none => scanSearch att cs

/-!
Name pattern 1 of line 95: `(?:brand name|medication|name):\s*([^\n]+)`,
searched with IGNORECASE|MULTILINE (MULTILINE is irrelevant: no anchors).
-/

/-- Lowercased literal `brand name:`. -/
def brandNameLit : List Char := "brand name:".toList

/-- Lowercased literal `medication:`. -/
def medicationLit : List Char := "medication:".toList

/-- Lowercased literal `name:`. -/
def nameLit : List Char := "name:".toList

/-- One labelled alternative: the literal (case-insensitive, colon included)
followed by the single-line captured value. -/
def tryLbl (lit : List Char) (cs : List Char) : Option (List Char) :=
  match litCI lit cs with
  | some r => grpSL r
  | none => none

/-- Attempt of name pattern 1 at one position, with ordered alternation. -/
def p1At (cs : List Char) : Option (List Char) :=
  match tryLbl brandNameLit cs with
  | some g => some g
  | none =>
    match tryLbl medicationLit cs with
    | some g => some g
    | none => tryLbl nameLit cs

/-!
Name pattern 2 of line 96 (the fallback): `^(?:\d+\.\s*)?([^:\n]+)(?::|$)`
with IGNORECASE|MULTILINE.  With MULTILINE, `^` matches at the start of the
text and after every newline, and after the greedy `[^:\n]+` the trailing
`(?::|$)` always holds (the run stops only at a colon, a newline, or the
end).  The `\s*` inside the optional ordinal marker may consume newlines.
-/

/-- Capture of `([^:\n]+)` after the ordinal marker's `\s*`, with greedy
backtracking inside the whitespace run (the run's characters other than a
newline may begin the capture). -/
def grpNCN : List Char → Option (List Char)
  | [] => none
  | c :: cs =>
    if isSpaceCh c then
      match grpNCN cs with
      | some g => some g
      | none => if c == '\n' then none else some (takeNonCN (c :: cs))
    else if c == ':' then none
    else some (takeNonCN (c :: cs))

/-- The optional ordinal marker `\d+\.\s*` followed by the capture; `none`
when the marker or the subsequent capture fails (the engine then retries
without the marker). -/
def ordTry (u : List Char) : Option (List Char) :=
  match takeDigits u with
  | ([], _) => none
  | (_ :: _, r) =>
    match r with
    | '.' :: r2 => grpNCN r2
    | _ => none

/-- Attempt of the fallback name pattern at one line start. -/
def fb2At (u : List Char) : Option (List Char) :=
  match ordTry u with
  | some g => some g
  | none =>
    match u with
    | [] => none
    | c :: _ => if c == ':' || c == '\n' then none else some (takeNonCN u)

/-- Leftmost search of the fallback pattern: the attempt runs only at
positions where MULTILINE `^` holds, i.e. at the text start and after each
newline. -/
def p2Go : Bool → List Char → Option (List Char)
  | _, [] => none
  | atStart, c :: cs =>
    match (if atStart then fb2At (c :: cs) else none) with
    | some g => some g
    | none => p2Go (c == '\n') cs

/-!
Field patterns of lines 106, 111, 116 (IGNORECASE, no MULTILINE):
`(?:active )?ingredients:\s*([^\n]+)`,
`(?:recommended )?dosage:\s*([^\n]+(?:\n\s+[^\n]+)*)`,
`side effects:\s*([^\n]+(?:\n\s+[^\n]+)*)`.
-/

/-- Lowercased literal `active `. -/
def activeLit : List Char := "active ".toList

/-- Lowercased literal `ingredients:`. -/
def ingredientsLit : List Char := "ingredients:".toList

/-- Lowercased literal `recommended `. -/
def recommendedLit : List Char := "recommended ".toList

/-- Lowercased literal `dosage:`. -/
def dosageLit : List Char := "dosage:".toList

/-- Lowercased literal `side effects:`. -/
def sideEffectsLit : List Char := "side effects:".toList

/-- Attempt of a label with an optional one-word qualifier at one position:
the qualified form is preferred, then the bare label at the same position. -/
def lbl2At (optLit mainLit : List Char) (grp : List Char → Option (List Char))
    (cs : List Char) : Option (List Char) :=
  match (match litCI optLit cs with
         | some r =>
           match litCI mainLit r with
           | some r2 => grp r2
           | none => none
         | none => none) with
  | some g => some g
  | none =>
    match litCI mainLit cs with
    | some r2 => grp r2
    | none => none

/-- Leftmost search of the active-ingredients pattern over a segment. -/
def searchIngredients (sec : List Char) : Option (List Char) :=
  scanSearch (lbl2At activeLit ingredientsLit grpSL) sec

/-- Leftmost search of the dosage pattern over a segment. -/
def searchDosage (sec : List Char) : Option (List Char) :=
  scanSearch (lbl2At recommendedLit dosageLit grpML) sec

/-- Attempt of the side-effects pattern at one position. -/
def sideAt (cs : List Char) : Option (List Char) :=
  match litCI sideEffectsLit cs with
  | some r => grpML r
  | none => none

/-- Leftmost search of the side-effects pattern over a segment. -/
def searchSideEffects (sec : List Char) : Option (List Char) :=
  scanSearch sideAt sec

/-!
The extractor itself: `parse_medication_recommendations` of lines 71-128.
-/

/-- One extracted record; `none` fields model Python `None`.  The dict of
lines 85-91 with rank, name, active_ingredients, dosage, side_effects. -/
structure MedicationInfo where
  rank : Nat
  name : Option (List Char)
  active_ingredients : Option (List Char)
  dosage : Option (List Char)
  side_effects : Option (List Char)
  deriving DecidableEq

/-- Name extraction of lines 94-103: pattern 1 first; on its match the loop
breaks (even when the stripped value is empty), otherwise the fallback
pattern is tried; the captured group is stripped. -/
def nameOf (sec : List Char) : Option (List Char) :=
  match scanSearch p1At sec with
  | some g => some (pyStrip g)
  | none =>
    match p2Go true sec with
    | some g => some (pyStrip g)
    | none => none

/-- Per-section record of lines 85-118: all four extractions are independent
searches over the same segment, each captured group stripped. -/
def extractSection (rank : Nat) (sec : List Char) : MedicationInfo :=
  { rank := rank,
    name := nameOf sec,
    active_ingredients := (searchIngredients sec).map pyStrip,
    dosage := (searchDosage sec).map pyStrip,
    side_effects := (searchSideEffects sec).map pyStrip }

/-- Python truthiness of the name slot: `None` and the empty string are
falsy (`if medication_info["name"]:`, line 120). -/
def nameTruthy : Option (List Char) → Bool
  | some n => !n.isEmpty
  | none => false

/-- Loop of lines 80-122: a whitespace-only section is skipped; a section is
appended, and the rank incremented, exactly when its name slot is truthy. -/
def parseLoop : Nat → List (List Char) → List MedicationInfo
  | _, [] => []
  | rank, sec :: rest =>
    if (pyStrip sec).isEmpty then parseLoop rank rest
    else if nameTruthy (nameOf sec) then
      extractSection rank sec :: parseLoop (rank + 1) rest
    else parseLoop rank rest

/-- `parse_medication_recommendations` of lines 71-128: split on the
segmentation regex, discard whitespace-only pieces, keep at most the first
three, then run the extraction loop with ranks starting at 1.  The Python
`try` body never raises on the pure operations modelled here; the
embedding is total by construction. -/
def parse_medication_recommendations (text : List Char) : List MedicationInfo :=
  parseLoop 1 (((reSplit text).filter (fun s => !(pyStrip s).isEmpty)).take 3)

/-!
Prompt builder of `get_medication_recommendations`, lines 52-69.
-/

/-- Python `", ".join`. -/
def joinCS : List (List Char) → List Char
  | [] => []
  | [s] => s
  | s :: s2 :: ss => s ++ ',' :: ' ' :: joinCS (s2 :: ss)

/-- Text of the query before the joined symptoms (line 57). -/
def qHead : List Char := "I have the following symptoms: ".toList

/-- Text of the query after the joined symptoms (lines 57-62); the two
adjacent literals of lines 61 and 62 concatenate with no space between
`effects` and `Format`. -/
def qTail : List Char :=
  (". Please recommend exactly 3 over-the-counter medications that would help, ranked by effectiveness (1st, 2nd, and 3rd choice). For each medication, provide: 1) Brand name, 2) Active ingredients, 3) Recommended dosage, 4) Side effectsFormat as a list with these details for each medication.").toList

/-- The query string built at lines 54-63 from the symptom list alone. -/
def buildQuery (symptoms : List (List Char)) : List Char :=
  qHead ++ joinCS symptoms ++ qTail

/-- The instruction sentence the spec singles out. -/
def instructionLit : List Char :=
  "Please recommend exactly 3 over-the-counter medications".toList

/-- Substring relation used to state the prompt properties. -/
def SubstringOf (s t : List Char) : Prop :=
  ∃ l r, t = l ++ s ++ r

/-- `get_medication_recommendations`, lines 65-69, with the network result of
`query_perplexity` abstracted as its optional response text: a `None` or
empty response yields `None` (the line 66 truthiness test), otherwise the
parsed list. -/
def get_medication_recommendations (responseText : Option (List Char)) :
    Option (List MedicationInfo) :=
  match responseText with
  | none => none
  | some t => if t.isEmpty then none else some (parse_medication_recommendations t)

/-!
Completion client `query_perplexity`, lines 20-50.  The transport is
abstracted as either a raised exception or an HTTP response carrying a
status code and an optionally JSON-decodable body; every step of the `try`
body is modelled in an exception monad and the bare `except` collapses any
error to `None`.
-/

/-- Minimal JSON value model for the response body. -/
inductive JVal where
  | jstr : List Char → JVal
  | jnum : Int → JVal
  | jbool : Bool → JVal
  | jnull : JVal
  | jarr : List JVal → JVal
  | jobj : List (List Char × JVal) → JVal

/-- Exceptions that can arise inside the `try` body of lines 37-47. -/
inductive PyExn where
  | requestError
  | httpError : Nat → PyExn
  | jsonError
  | keyError
  | indexError
  | typeMismatch

/-- An HTTP response: final status code and, when the body is valid JSON,
its decoded value. -/
structure HttpResponse where
  status : Nat
  body : Option JVal

/-- `response.raise_for_status()` of line 43: requests raises `HTTPError`
exactly for status codes 400-599. -/
def raiseForStatus (r : HttpResponse) : Except PyExn Unit :=
  if 400 ≤ r.status ∧ r.status < 600 then Except.error (PyExn.httpError r.status)
  else Except.ok ()

/-- `response.json()` of line 46: a body that is not valid JSON raises. -/
def respJson (r : HttpResponse) : Except PyExn JVal :=
  match r.body with
  | some v => Except.ok v
  | none => Except.error PyExn.jsonError

/-- First-match dict lookup. -/
def lookupField : List (List Char × JVal) → List Char → Option JVal
  | [], _ => none
  | kv :: fs, key => if kv.fst == key then some kv.snd else lookupField fs key

/-- Python `value[key]` on the decoded JSON: a missing key or a non-object
value raises. -/
def jGetField (v : JVal) (key : List Char) : Except PyExn JVal :=
  match v with
  | JVal.jobj fs =>
    match lookupField fs key with
    | some x => Except.ok x
    | none => Except.error PyExn.keyError
  | _ => Except.error PyExn.typeMismatch

/-- Python `value[i]` on the decoded JSON: an out-of-range index or a
non-array value raises. -/
def jGetIdx (v : JVal) (i : Nat) : Except PyExn JVal :=
  match v with
  | JVal.jarr xs =>
    match xs[i]? with
    | some x => Except.ok x
    | none => Except.error PyExn.indexError
  | _ => Except.error PyExn.typeMismatch

/-- Key `choices` of line 47. -/
def choicesKey : List Char := "choices".toList

/-- Key `message` of line 47. -/
def messageKey : List Char := "message".toList

/-- Key `content` of line 47. -/
def contentKey : List Char := "content".toList

/-- The chained lookup `data["choices"][0]["message"]["content"]` of
line 47, propagating the first raised exception. -/
def extractContent (data : JVal) : Except PyExn JVal :=
  match jGetField data choicesKey with
  | Except.error e => Except.error e
  | Except.ok cs =>
    match jGetIdx cs 0 with
    | Except.error e => Except.error e
    | Except.ok c0 =>
      match jGetField c0 messageKey with
      | Except.error e => Except.error e
      | Except.ok msg => jGetField msg contentKey

/-- The `try` body of lines 37-47: post the request, raise on a 4xx/5xx
status, decode JSON, and extract `choices[0].message.content`; each step
propagates the first raised exception. -/
def queryAttempt (transport : Except PyExn HttpResponse) : Except PyExn JVal :=
  match transport with
  | Except.error e => Except.error e
  | Except.ok r =>
    match raiseForStatus r with
    | Except.error e => Except.error e
    | Except.ok _ =>
      match respJson r with
      | Except.error e => Except.error e
      | Except.ok data => extractContent data

/-- `query_perplexity` of lines 20-50: the bare `except` of line 48 turns
every exception into the single failure value `None`. -/
def query_perplexity (transport : Except PyExn HttpResponse) : Option JVal :=
  match queryAttempt transport with
  | Except.ok v => some v
  | Except.error _ => none

/-- Exception-free description of the extraction path
`data["choices"][0]["message"]["content"]`. -/
def jFieldO (v : JVal) (key : List Char) : Option JVal :=
  match v with
  | JVal.jobj fs => lookupField fs key
  | _ => none

/-- Exception-free array indexing. -/
def jIdxO (v : JVal) (i : Nat) : Option JVal :=
  match v with
  | JVal.jarr xs => xs[i]?
  | _ => none

/-- The content path of line 47 as a partial lookup. -/
def contentPath (v : JVal) : Option JVal :=
  (jFieldO v choicesKey).bind (fun cs =>
    (jIdxO cs 0).bind (fun c0 =>
      (jFieldO c0 messageKey).bind (fun msg =>
        jFieldO msg contentKey)))

/-!
Route handler `recommend_medication` of app.py, lines 33-96.
-/

/-- The page rendered back to the browser: the index template with an error
message, or the results template with the medication list. -/
inductive PageResult where
  | errorPage : List Char → PageResult
  | resultsPage : List MedicationInfo → PageResult
  deriving DecidableEq

/-- Error message of app.py line 71. -/
def failedMsg : List Char :=
  "Failed to get medication recommendations. Please try again.".toList

/-- Result dispatch of app.py lines 66-86 on the value returned by the
service call: `if not medications:` renders the error template for `None`
and for the empty list alike, otherwise the results template. -/
def recommend_dispatch (medications : Option (List MedicationInfo)) : PageResult :=
  match medications with
  | none => PageResult.errorPage failedMsg
  | some meds =>
    if meds.isEmpty then PageResult.errorPage failedMsg
    else PageResult.resultsPage meds

/-- Parameters of `get_medication_recommendations` in perplexity_service.py
line 52, beyond `self`: only the symptom list. -/
def getMedicationRecommendationsParams : List (List Char) :=
  [("symptoms".toList)]

/-- Positional arguments passed to that method at app.py lines 59-64,
beyond `self`: the symptom list plus the three attribute fields. -/
def recommendMedicationCallArgs : List (List Char) :=
  [("symptom_list".toList), ("gender".toList), ("age".toList), ("allergic".toList)]

/-- A Python call binds positionally only when the argument count equals the
parameter count (the signature has no defaults or varargs); otherwise the
call raises `TypeError`. -/
def pyPositionalBindOk (paramCount argCount : Nat) : Bool :=
  argCount == paramCount

/-- Modelled from the spec: the spec describes the fallback name rule as
applying at the start of the segment only ("fall back to treating the start
of the segment as: optional leading ordinal marker, then text up to a colon
or end of line").  This definition applies the fallback pattern at the
segment start alone, unlike the code, whose MULTILINE search also tries
every later line start. -/
def specFallbackNameAtStart (sec : List Char) : Option (List Char) :=
  fb2At sec

/-!
Structural lemmas about the extraction loop.
-/

theorem parseLoop_length_le (l : List (List Char)) :
    ∀ r, (parseLoop r l).length ≤ l.length := by
  induction l with
  | nil => intro r; simp [parseLoop]
  | cons sec rest ih =>
    intro r
    simp only [parseLoop]
    split
    · exact Nat.le_trans (ih r) (Nat.le_succ _)
    · split
      · simpa using Nat.succ_le_succ (ih (r + 1))
      · exact Nat.le_trans (ih r) (Nat.le_succ _)

theorem parseLoop_ranks (l : List (List Char)) :
    ∀ r, (parseLoop r l).map (fun m => m.rank) =
      List.range' r (parseLoop r l).length := by
  induction l with
  | nil => intro r; simp [parseLoop]
  | cons sec rest ih =>
    intro r
    simp only [parseLoop]
    split
    · exact ih r
    · split
      · simp only [List.map_cons, List.length_cons, ih (r + 1)]
        rfl
      · exact ih r

theorem parseLoop_mem (l : List (List Char)) :
    ∀ r m, m ∈ parseLoop r l →
      ∃ rk sec, m = extractSection rk sec ∧ nameTruthy (nameOf sec) = true := by
  induction l with
  | nil => intro r m hm; simp [parseLoop] at hm
  | cons sec rest ih =>
    intro r m hm
    simp only [parseLoop] at hm
    split at hm
    · exact ih r m hm
    · split at hm
      next hname =>
        rcases List.mem_cons.mp hm with hEq | hTail
        · exact ⟨r, sec, hEq, hname⟩
        · exact ih (r + 1) m hTail
      · exact ih r m hm

/-!
Lemmas about `pyStrip`: the result carries no leading or trailing
whitespace.
-/

/-- A list with no leading and no trailing whitespace character. -/
def Trimmed (v : List Char) : Prop :=
  (∀ c, v.head? = some c → isSpaceCh c = false) ∧
  (∀ c, v.getLast? = some c → isSpaceCh c = false)

theorem dropWsL_head (l : List Char) :
    ∀ c, (dropWsL l).head? = some c → isSpaceCh c = false := by
  induction l with
  | nil => intro c h; simp [dropWsL] at h
  | cons a l ih =>
    intro c h
    by_cases ha : isSpaceCh a
    · exact ih c (by simpa [dropWsL, ha] using h)
    · simp [dropWsL, ha] at h
      subst h
      simpa using ha

theorem dropWsL_getLast (l : List Char) :
    ∀ c, (dropWsL l).getLast? = some c → l.getLast? = some c := by
  induction l with
  | nil => intro c h; simp [dropWsL] at h
  | cons a l ih =>
    intro c h
    by_cases ha : isSpaceCh a
    · have h' : (dropWsL l).getLast? = some c := by simpa [dropWsL, ha] using h
      have hl := ih c h'
      have hlne : l ≠ [] := by
        intro hnil
        rw [hnil] at hl
        simp at hl
      obtain ⟨b, l', rfl⟩ := List.exists_cons_of_ne_nil hlne
      simpa [List.getLast?_cons_cons] using hl
    · simpa [dropWsL, ha] using h

theorem pyStrip_trimmed (l : List Char) : Trimmed (pyStrip l) := by
  constructor
  · intro c h
    exact dropWsL_head _ c h
  · intro c h
    have h2 : ((dropWsL l.reverse).reverse).getLast? = some c :=
      dropWsL_getLast _ c h
    rw [List.getLast?_reverse] at h2
    exact dropWsL_head _ c h2

/-- The name slot of any record produced by `extractSection` is a stripped
captured group when present. -/
theorem nameOf_eq_strip (sec : List Char) (n : List Char)
    (h : nameOf sec = some n) : ∃ g, n = pyStrip g := by
  unfold nameOf at h
  cases h1 : scanSearch p1At sec with
  | some g =>
    rw [h1] at h
    exact ⟨g, (Option.some.injEq _ _ ▸ h.symm)⟩
  | none =>
    rw [h1] at h
    cases h2 : p2Go true sec with
    | some g =>
      rw [h2] at h
      exact ⟨g, (Option.some.injEq _ _ ▸ h.symm)⟩
    | none => rw [h2] at h; exact absurd h (by simp)

/-!
The fallback name search visits exactly the MULTILINE line starts.
-/

/-- First success of an attempt over a list of candidate positions. -/
def findSome (f : List Char → Option (List Char)) : List (List Char) → Option (List Char)
  | [] => none
  | u :: us =>
    match f u with
    | some g => some g
    | none => findSome f us

/-- The suffixes beginning right after each newline of the text. -/
def tailsAfterNl : List Char → List (List Char)
  | [] => []
  | c :: cs => if c == '\n' then cs :: tailsAfterNl cs else tailsAfterNl cs

/-- All positions where MULTILINE `^` holds: the text itself, then after
each newline. -/
def lineStarts (cs : List Char) : List (List Char) :=
  cs :: tailsAfterNl cs

theorem p2Go_eq_findSome (cs : List Char) :
    ∀ b, p2Go b cs =
      findSome fb2At (if b then cs :: tailsAfterNl cs else tailsAfterNl cs) := by
  induction cs with
  | nil => intro b; cases b <;> rfl
  | cons c cs ih =>
    intro b
    cases b with
    | false =>
      show p2Go (c == '\n') cs = findSome fb2At (tailsAfterNl (c :: cs))
      by_cases hc : c == '\n'
      · simp only [tailsAfterNl, hc, if_true]
        simpa [hc] using ih true
      · simp only [tailsAfterNl, hc, if_false]
        simpa [hc] using ih false
    | true =>
      simp only [p2Go, if_true, lineStarts, findSome]
      cases hfb : fb2At (c :: cs) with
      | some g => simp
      | none =>
        simp only
        show p2Go (c == '\n') cs = findSome fb2At (tailsAfterNl (c :: cs))
        by_cases hc : c == '\n'
        · simp only [tailsAfterNl, hc, if_true]
          simpa [hc] using ih true
        · simp only [tailsAfterNl, hc, if_false]
          simpa [hc] using ih false

/-!
Lemmas about the prompt builder.
-/

theorem joinCS_substring (L : List (List Char)) :
    ∀ s, s ∈ L → SubstringOf s (joinCS L) := by
  induction L with
  | nil => intro s hs; simp at hs
  | cons a t ih =>
    intro s hs
    cases t with
    | nil =>
      rcases List.mem_singleton.mp hs with rfl
      exact ⟨[], [], by simp [joinCS]⟩
    | cons b t' =>
      rcases List.mem_cons.mp hs with rfl | hmem
      · exact ⟨[], ',' :: ' ' :: joinCS (b :: t'), by simp [joinCS]⟩
      · obtain ⟨l, r, hEq⟩ := ih s hmem
        exact ⟨a ++ ',' :: ' ' :: l, r, by simp [joinCS, hEq]⟩

theorem substring_extend (s j l r : List Char) (h : SubstringOf s j) :
    SubstringOf s (l ++ j ++ r) := by
  obtain ⟨l', r', hEq⟩ := h
  exact ⟨l ++ l', r' ++ r, by simp [hEq]⟩

/-!
Correspondence between the raising extraction steps and the partial
lookups of `contentPath`.
-/

theorem raiseForStatus_err (r : HttpResponse) (h1 : 400 ≤ r.status)
    (h2 : r.status < 600) :
    raiseForStatus r = Except.error (PyExn.httpError r.status) := by
  simp [raiseForStatus, h1, h2]

theorem raiseForStatus_ok (r : HttpResponse)
    (hs : ¬(400 ≤ r.status ∧ r.status < 600)) : raiseForStatus r = Except.ok () := by
  simp only [raiseForStatus, if_neg hs]

theorem jGetField_of_some (v : JVal) (key : List Char) (x : JVal)
    (h : jFieldO v key = some x) : jGetField v key = Except.ok x := by
  cases v <;> simp_all [jFieldO, jGetField]

theorem jGetField_of_none (v : JVal) (key : List Char)
    (h : jFieldO v key = none) : ∃ e, jGetField v key = Except.error e := by
  cases v <;> simp_all [jFieldO, jGetField]

theorem jGetIdx_of_some (v : JVal) (i : Nat) (x : JVal)
    (h : jIdxO v i = some x) : jGetIdx v i = Except.ok x := by
  cases v <;> simp_all [jIdxO, jGetIdx]

theorem jGetIdx_of_none (v : JVal) (i : Nat)
    (h : jIdxO v i = none) : ∃ e, jGetIdx v i = Except.error e := by
  cases v with
  | jarr xs =>
    simp only [jIdxO] at h
    exact ⟨PyExn.indexError, by simp [jGetIdx, h]⟩
  | jstr s => exact ⟨PyExn.typeMismatch, rfl⟩
  | jnum n => exact ⟨PyExn.typeMismatch, rfl⟩
  | jbool b => exact ⟨PyExn.typeMismatch, rfl⟩
  | jnull => exact ⟨PyExn.typeMismatch, rfl⟩
  | jobj fs => exact ⟨PyExn.typeMismatch, rfl⟩

/-- The raising lookup chain, seen through the bare `except`, computes the
partial lookup `contentPath`. -/
theorem extractContent_toOption (v : JVal) :
    (match extractContent v with
     | Except.ok x => some x
     | Except.error _ => none) = contentPath v := by
  unfold extractContent contentPath
  cases h1 : jFieldO v choicesKey with
  | none =>
    obtain ⟨e, he⟩ := jGetField_of_none _ _ h1
    simp [he, h1]
  | some cs =>
    simp only [jGetField_of_some _ _ _ h1, h1, Option.some_bind]
    cases h2 : jIdxO cs 0 with
    | none =>
      obtain ⟨e, he⟩ := jGetIdx_of_none _ _ h2
      simp [he, h2]
    | some c0 =>
      simp only [jGetIdx_of_some _ _ _ h2, h2, Option.some_bind]
      cases h3 : jFieldO c0 messageKey with
      | none =>
        obtain ⟨e, he⟩ := jGetField_of_none _ _ h3
        simp [he, h3]
      | some msg =>
        simp only [jGetField_of_some _ _ _ h3, h3, Option.some_bind]
        cases h4 : jFieldO msg contentKey with
        | none =>
          obtain ⟨e, he⟩ := jGetField_of_none _ _ h4
          simp [he, h4]
        | some x =>
          simp [jGetField_of_some _ _ _ h4, h4]

/-!
Concrete inputs used by counterexamples and witnesses.
-/

/-- The unstructured input of spec scenario C. -/
def garbageInput : List Char :=
  "Just some unrelated text with no structure".toList

/-- A segment whose first line cannot carry the fallback name pattern. -/
def colonFirstSegment : List Char := ":x\nbar".toList

/-- A segment matched only by the fallback name pattern. -/
def plainSegment : List Char := "2. Tylenol".toList

/-- A one-line response with an explicit name label. -/
def c4Input : List Char := "Name: Advil".toList

/-- A response populating name, dosage and side effects. -/
def c10Input : List Char :=
  "Name: Advil\nDosage: 200mg\nSide effects: nausea".toList

/-- The record extracted from `c10Input`. -/
def c10Rec : MedicationInfo :=
  ⟨1, some ("Advil".toList), none, some ("200mg".toList), some ("nausea".toList)⟩

/-- A response body of the shape the client expects. -/
def goodBody : JVal :=
  JVal.jobj [(("choices".toList),
    JVal.jarr [JVal.jobj [(("message".toList),
      JVal.jobj [(("content".toList), JVal.jstr ("ok".toList))])]])]

/-- Symptoms used to instantiate the prompt properties. -/
def sampleSymptoms : List (List Char) :=
  [("headache".toList), ("fever".toList)]

/-!
Claim theorems.
-/

/-- C1: the extractor is total — the embedding is a total function on all
input strings — and its result always has length at most 3: at most the
first three non-blank segments are processed and each contributes at most
one record. -/
theorem C1_extractor_total_and_bounded (text : List Char) :
    (parse_medication_recommendations text).length ≤ 3 := by
  unfold parse_medication_recommendations
  refine Nat.le_trans (parseLoop_length_le _ 1) ?_
  rw [List.length_take]
  exact Nat.min_le_left _ _

/-- C2 counterexample: on the unstructured scenario-C input the extractor
does not return the empty list — the fallback name pattern matches the
whole line, so one record is produced. -/
theorem C2_counterexample_garbage_extracts_one :
    parse_medication_recommendations garbageInput ≠ [] := by decide

/-- C2 amended: on the scenario-C input the extractor returns exactly one
recommendation of rank 1 whose name is the entire input text (captured by
the fallback pattern up to end of line) with all other fields null. -/
theorem C2_garbage_single_fallback_record :
    parse_medication_recommendations garbageInput =
      [⟨1, some garbageInput, none, none, none⟩] := by decide

/-- C3: the rank fields of the result are exactly 1..len(result) in order:
the rank counter starts at 1 and is incremented exactly when a segment is
accepted. -/
theorem C3_ranks_contiguous_from_one (text : List Char) :
    (parse_medication_recommendations text).map (fun m => m.rank) =
      List.range' 1 (parse_medication_recommendations text).length :=
  parseLoop_ranks _ 1

/-- C4: every entry of the extractor's output has a non-null name; a
segment enters the output only when name extraction succeeded. -/
theorem C4_output_entries_have_name (text : List Char) (m : MedicationInfo)
    (hm : m ∈ parse_medication_recommendations text) : m.name ≠ none := by
  obtain ⟨rk, sec, rfl, hname⟩ := parseLoop_mem _ 1 m hm
  cases hn : nameOf sec with
  | none => rw [hn] at hname; simp [nameTruthy] at hname
  | some n => simp [extractSection, hn]

/-- Witness for C4 at the input `Name: Advil`. -/
theorem C4_output_entries_have_name_witness :
    (⟨1, some ("Advil".toList), none, none, none⟩ : MedicationInfo).name ≠ none :=
  C4_output_entries_have_name c4Input
    ⟨1, some ("Advil".toList), none, none, none⟩ (by decide)

/-- C5 counterexample: in the segment `:x\nbar` no explicit name label
matches and the fallback pattern fails at the start of the segment (the
spec-modelled reading yields nothing), yet the code extracts the name
`bar` from the second line, because the MULTILINE search also tries later
line starts. -/
theorem C5_counterexample_fallback_not_at_start :
    scanSearch p1At colonFirstSegment = none ∧
    specFallbackNameAtStart colonFirstSegment = none ∧
    nameOf colonFirstSegment = some ("bar".toList) := by decide

/-- C5 amended: when no explicit label matches anywhere in the segment, the
name is the stripped capture of the fallback pattern at the first line
start (segment start, then after each newline) where it matches — usually
the start of the segment, but a line offering no colon-free text is
skipped in favour of a later line. -/
theorem C5_fallback_first_matching_line_start (sec : List Char)
    (h : scanSearch p1At sec = none) :
    nameOf sec = (findSome fb2At (lineStarts sec)).map pyStrip := by
  unfold nameOf
  rw [h]
  have hp : p2Go true sec = findSome fb2At (lineStarts sec) := by
    simpa [lineStarts] using p2Go_eq_findSome sec true
  rw [hp]
  cases findSome fb2At (lineStarts sec) <;> rfl

/-- Witness for the amended C5 at the segment `2. Tylenol`. -/
theorem C5_fallback_first_matching_line_start_witness :
    nameOf plainSegment = (findSome fb2At (lineStarts plainSegment)).map pyStrip :=
  C5_fallback_first_matching_line_start plainSegment (by decide)

/-- C6 (supporting theorem for the code bug): the call in app.py passes
four positional arguments to a method declared with a single parameter, so
the call cannot bind and raises `TypeError`; the prompt builder neither
accepts nor embeds the patient attributes. -/
theorem C6_call_arity_mismatch :
    pyPositionalBindOk getMedicationRecommendationsParams.length
      recommendMedicationCallArgs.length = false := by decide

/-- C7 counterexample: a response with the non-2xx status 300 and a
well-formed body is not turned into the failure value — `raise_for_status`
raises only for 4xx/5xx, so the content is returned. -/
theorem C7_counterexample_non2xx_not_failure :
    query_perplexity (Except.ok ⟨300, some goodBody⟩) =
      some (JVal.jstr ("ok".toList)) := rfl

/-- C7 amended: the client never raises past its boundary — it returns
`None` on a transport exception, on any 4xx/5xx status, and on a body that
is not valid JSON; for any other status with a valid JSON body the result
is exactly the lookup `choices[0].message.content`, which is `None` when
a field is missing along that path and the content value otherwise. -/
theorem C7_client_failure_contract :
    (∀ e, query_perplexity (Except.error e) = none) ∧
    (∀ r : HttpResponse, 400 ≤ r.status → r.status < 600 →
      query_perplexity (Except.ok r) = none) ∧
    (∀ r : HttpResponse, r.body = none → query_perplexity (Except.ok r) = none) ∧
    (∀ (r : HttpResponse) (v : JVal), ¬(400 ≤ r.status ∧ r.status < 600) →
      r.body = some v → query_perplexity (Except.ok r) = contentPath v) := by
  refine ⟨fun e => rfl, ?_, ?_, ?_⟩
  · intro r h1 h2
    simp [query_perplexity, queryAttempt, raiseForStatus_err r h1 h2]
  · intro r hb
    cases hrs : raiseForStatus r with
    | error e => simp [query_perplexity, queryAttempt, hrs]
    | ok u => simp [query_perplexity, queryAttempt, hrs, respJson, hb]
  · intro r v hs hb
    have hq : queryAttempt (Except.ok r) = extractContent v := by
      simp [queryAttempt, raiseForStatus_ok r hs, respJson, hb]
    rw [query_perplexity, hq]
    exact extractContent_toOption v

/-- Witness for the amended C7: a transport error, a 404, a malformed body,
and a successful 200 response. -/
theorem C7_client_failure_contract_witness :
    query_perplexity (Except.error PyExn.requestError) = none ∧
    query_perplexity (Except.ok ⟨404, some goodBody⟩) = none ∧
    query_perplexity (Except.ok ⟨200, none⟩) = none ∧
    query_perplexity (Except.ok ⟨200, some goodBody⟩) = some (JVal.jstr ("ok".toList)) :=
  ⟨C7_client_failure_contract.1 PyExn.requestError,
   C7_client_failure_contract.2.1 ⟨404, some goodBody⟩ (by decide) (by decide),
   C7_client_failure_contract.2.2.1 ⟨200, none⟩ rfl,
   (C7_client_failure_contract.2.2.2 ⟨200, some goodBody⟩ goodBody (by decide) rfl).trans rfl⟩

/-- C8 counterexample: an empty extraction result is rendered as the same
failure error page as a failed completion — the route's `if not
medications:` does not distinguish the two. -/
theorem C8_counterexample_empty_result_shows_failure_error :
    recommend_dispatch (some []) = PageResult.errorPage failedMsg ∧
    recommend_dispatch none = PageResult.errorPage failedMsg :=
  ⟨rfl, rfl⟩

/-- C8 amended: the failure error page is shown exactly when the service
returned `None` or the empty list; the empty list is never surfaced as an
empty-result display. -/
theorem C8_error_page_iff_none_or_empty (medications : Option (List MedicationInfo)) :
    recommend_dispatch medications = PageResult.errorPage failedMsg ↔
      (medications = none ∨ medications = some []) := by
  cases medications with
  | none => simp [recommend_dispatch]
  | some meds =>
    cases meds with
    | nil => simp [recommend_dispatch]
    | cons m ms => simp [recommend_dispatch]

/-- Text of the query following the instruction sentence. -/
def qTailRest : List Char :=
  (" that would help, ranked by effectiveness (1st, 2nd, and 3rd choice). For each medication, provide: 1) Brand name, 2) Active ingredients, 3) Recommended dosage, 4) Side effectsFormat as a list with these details for each medication.").toList

set_option maxRecDepth 8192 in
theorem qTail_decomp : qTail = (". ".toList) ++ instructionLit ++ qTailRest := by
  decide

/-- C9: the built prompt contains every symptom verbatim (the symptoms are
joined with a comma-and-space separator by `joinCS` inside `buildQuery`)
and contains the literal instruction demanding exactly 3 over-the-counter
medications; the builder is a pure function of the symptom list. -/
theorem C9_prompt_contains_symptoms_and_instruction (symptoms : List (List Char))
    (_h : symptoms ≠ []) :
    (∀ s ∈ symptoms, SubstringOf s (buildQuery symptoms)) ∧
    SubstringOf instructionLit (buildQuery symptoms) := by
  constructor
  · intro s hs
    exact substring_extend s (joinCS symptoms) qHead qTail (joinCS_substring symptoms s hs)
  · refine ⟨qHead ++ joinCS symptoms ++ (". ".toList), qTailRest, ?_⟩
    unfold buildQuery
    rw [qTail_decomp]
    simp [List.append_assoc]

/-- Witness for C9 at the symptom list `headache, fever`. -/
theorem C9_prompt_contains_symptoms_and_instruction_witness :
    (∀ s ∈ sampleSymptoms, SubstringOf s (buildQuery sampleSymptoms)) ∧
    SubstringOf instructionLit (buildQuery sampleSymptoms) :=
  C9_prompt_contains_symptoms_and_instruction sampleSymptoms (by decide)

/-- C10: every returned record has a non-empty name (a name stripping to
the empty string is falsy, so its segment is dropped), and every present
field value is stripped: no leading or trailing whitespace. -/
theorem C10_output_fields_trimmed (text : List Char) (m : MedicationInfo)
    (hm : m ∈ parse_medication_recommendations text) :
    (∃ n, m.name = some n ∧ n ≠ [] ∧ Trimmed n) ∧
    (∀ v, m.active_ingredients = some v → Trimmed v) ∧
    (∀ v, m.dosage = some v → Trimmed v) ∧
    (∀ v, m.side_effects = some v → Trimmed v) := by
  obtain ⟨rk, sec, rfl, hname⟩ := parseLoop_mem _ 1 m hm
  refine ⟨?_, ?_, ?_, ?_⟩
  · cases hn : nameOf sec with
    | none => rw [hn] at hname; simp [nameTruthy] at hname
    | some n =>
      rw [hn] at hname
      obtain ⟨g, rfl⟩ := nameOf_eq_strip sec n hn
      refine ⟨pyStrip g, by simp [extractSection, hn], ?_, pyStrip_trimmed g⟩
      intro hempty
      rw [hempty] at hname
      simp [nameTruthy] at hname
  · intro v hv
    simp only [extractSection] at hv
    obtain ⟨g, hg, rfl⟩ := Option.map_eq_some'.mp hv
    exact pyStrip_trimmed g
  · intro v hv
    simp only [extractSection] at hv
    obtain ⟨g, hg, rfl⟩ := Option.map_eq_some'.mp hv
    exact pyStrip_trimmed g
  · intro v hv
    simp only [extractSection] at hv
    obtain ⟨g, hg, rfl⟩ := Option.map_eq_some'.mp hv
    exact pyStrip_trimmed g

/-- Witness for C10 at a response with name, dosage and side effects. -/
theorem C10_output_fields_trimmed_witness :
    (∃ n, c10Rec.name = some n ∧ n ≠ [] ∧ Trimmed n) ∧
    (∀ v, c10Rec.active_ingredients = some v → Trimmed v) ∧
    (∀ v, c10Rec.dosage = some v → Trimmed v) ∧
    (∀ v, c10Rec.side_effects = some v → Trimmed v) :=
  C10_output_fields_trimmed c10Input c10Rec (by decide)
